import Mathlib

/-!
Verification of the eden-rs streaming client.

This file shallowly embeds the JSON-RPC decoding layer
(`src/json_rpc/id.rs`, `src/json_rpc/error.rs`,
`src/json_rpc/response.rs`, `src/json_rpc/notification.rs`), the
domain-type conversions (`src/types.rs`), and the subscription driver
loop (`src/client/mod.rs`), and proves the specified properties of the
classifier, the decoders, and the driver.
-/

namespace Eden

/-- A parsed JSON value.  Numbers are modelled as arbitrary-precision
integers (the feed's JSON-RPC traffic carries integral numbers; the
visitors in the source reject every non-integral number anyway).
Objects keep their fields in textual order and may contain repeated
keys, which the decoders below must detect. -/
inductive Json where
  | null
  | bool (b : Bool)
  | num (n : Int)
  | str (s : String)
  | arr (elems : List Json)
  | obj (fields : List (String × Json))

/-- The kind of a JSON value, as named by serde type-mismatch messages. -/
def Json.kind : Json → String
  | .null => "null"
  | .bool _ => "boolean"
  | .num _ => "integer"
  | .str _ => "string"
  | .arr _ => "sequence"
  | .obj _ => "map"

/-- Whether a JSON value is a string primitive. -/
def Json.isStr : Json → Bool
  | .str _ => true
  | _ => false

/-- Decode errors, mirroring the serde error constructors the source
uses: `duplicate_field`, `missing_field`, `invalid_type`, and
`Error::custom` with a free-form message. -/
inductive DeError where
  | duplicateField (field : String)
  | missingField (field : String)
  | invalidType (unexpected : String) (expected : String)
  | custom (msg : String)
deriving DecidableEq

/-- `src/json_rpc/id.rs`: a JSON-RPC 2.0 ID — a number, a string, or null. -/
inductive Id where
  | number (n : Nat)
  | string (s : String)
  | none
deriving DecidableEq

/-- `impl Serialize for Id`: a number serializes as a JSON number, a
string as a JSON string, `None` as JSON null. -/
def Id.serialize : Id → Json
  | .number n => .num (n : Int)
  | .string s => .str s
  | .none => .null

/-- `impl Deserialize for Id` (`IdVisitor`): `visit_str` accepts any
string, `visit_u64` accepts any unsigned 64-bit integer, `visit_unit`
accepts null; every other shape hits a default visitor method and is
rejected with an invalid-type error carrying the visitor's expectation
"a string, a number, or null".  A negative integer reaches the
unimplemented `visit_i64`, and an integer not representable in 64 bits
is presented by serde_json as a float and reaches the unimplemented
`visit_f64`. -/
def Id.deserialize : Json → Except DeError Id
  | .str s => .ok (.string s)
  | .num n =>
    if 0 ≤ n then
      if n < 2 ^ 64 then .ok (.number n.toNat)
      else .error (.invalidType "floating point number" "a string, a number, or null")
    else .error (.invalidType "integer" "a string, a number, or null")
  | .null => .ok .none
  | j => .error (.invalidType j.kind "a string, a number, or null")

/-- `Id::is_number`. -/
def Id.is_number : Id → Bool
  | .number _ => true
  | _ => false

/-- `Id::is_string`. -/
def Id.is_string : Id → Bool
  | .string _ => true
  | _ => false

/-- `Id::is_none`. -/
def Id.is_none : Id → Bool
  | .none => true
  | _ => false

/-- `Id::as_number`. -/
def Id.as_number : Id → Option Nat
  | .number n => some n
  | _ => Option.none

/-- `Id::as_string`. -/
def Id.as_string : Id → Option String
  | .string s => some s
  | _ => Option.none

/-- `src/json_rpc/error.rs`: a JSON-RPC 2.0 error object.  `data` keeps
the raw JSON value, as the source stores it as a boxed `RawValue`. -/
structure ErrorPayload where
  code : Int
  message : String
  data : Option Json

/-- The smallest `i64` value, `-(2^63)`. -/
def i64Min : Int := -(2 ^ 63)

/-- One past the largest `i64` value, `2^63`. -/
def i64Max : Int := 2 ^ 63

/-- Accumulator of `ErrorPayloadVisitor::visit_map`: the three local
`Option` slots filled while draining the map. -/
structure EpSlots where
  code? : Option Int
  message? : Option String
  data? : Option Json

/-- All three slots empty, the state before the field loop starts. -/
def EpSlots.empty : EpSlots := ⟨Option.none, Option.none, Option.none⟩

/-- The field loop of `ErrorPayloadVisitor::visit_map`: each key is
classified by the `Field` deserializer (`code` / `message` / `data` /
unknown); a repeated known key fails with `duplicate_field`; `code`
must hold an `i64`, `message` a string, `data` any raw value; unknown
keys have their value consumed as `IgnoredAny` and are dropped. -/
def epScanFields : List (String × Json) → EpSlots → Except DeError EpSlots
  | [], t => .ok t
  | (key, v) :: rest, t =>
    if key = "code" then
      match t.code? with
      | some _ => .error (.duplicateField "code")
      | Option.none =>
        match v with
        | .num n =>
          if i64Min ≤ n ∧ n < i64Max then
            epScanFields rest { t with code? := some n }
          else .error (.invalidType "number" "i64")
        | _ => .error (.invalidType v.kind "i64")
    else if key = "message" then
      match t.message? with
      | some _ => .error (.duplicateField "message")
      | Option.none =>
        match v with
        | .str s => epScanFields rest { t with message? := some s }
        | _ => .error (.invalidType v.kind "a string")
    else if key = "data" then
      match t.data? with
      | some _ => .error (.duplicateField "data")
      | Option.none => epScanFields rest { t with data? := some v }
    else epScanFields rest t

/-- `impl Deserialize for ErrorPayload`: run the field loop, then build
the payload — `code` is required (`missing_field("code")` otherwise),
`message` defaults to the empty string, `data` stays optional.  The
visitor only implements `visit_map`, so any non-object is rejected with
an invalid-type error carrying the visitor's expectation. -/
def ErrorPayload.deserialize : Json → Except DeError ErrorPayload
  | .obj fields =>
    match epScanFields fields EpSlots.empty with
    | .error e => .error e
    | .ok t =>
      match t.code? with
      | Option.none => .error (.missingField "code")
      | some c => .ok ⟨c, t.message?.getD "", t.data?⟩
  | j => .error (.invalidType j.kind "a JSON-RPC2.0 error object")

/-- `src/json_rpc/notification.rs`: `EdenNotification { subscription: u64,
result: EdenPendingTx }`.  The `result` payload is the externally
defined pending-transaction record (decoded through ethers-core's serde
implementations, which are a dependency, not part of this repository);
the spec treats the domain payload as opaque and the driver forwards it
unchanged, so it is kept here as the raw JSON value. -/
structure EdenNotification where
  subscription : Nat
  result : Json

/-- The serde-derived deserializer body for `EdenNotification`: a map
visitor with fields `subscription` (a `u64`) and `result`; a repeated
field fails with `duplicate_field`, a missing one with
`missing_field` (checked in declaration order), unknown fields are
ignored. -/
def notifScan : List (String × Json) → Option Nat → Option Json →
    Except DeError EdenNotification
  | [], sub?, res? =>
    match sub? with
    | Option.none => .error (.missingField "subscription")
    | some sub =>
      match res? with
      | Option.none => .error (.missingField "result")
      | some res => .ok ⟨sub, res⟩
  | (key, v) :: rest, sub?, res? =>
    if key = "subscription" then
      match sub? with
      | some _ => .error (.duplicateField "subscription")
      | Option.none =>
        match v with
        | .num n =>
          if 0 ≤ n ∧ n < 2 ^ 64 then notifScan rest (some n.toNat) res?
          else .error (.invalidType "number" "u64")
        | _ => .error (.invalidType v.kind "u64")
    else if key = "result" then
      match res? with
      | some _ => .error (.duplicateField "result")
      | Option.none => notifScan rest sub? (some v)
    else notifScan rest sub? res?

/-- The derived `Deserialize for EdenNotification`, entered from a JSON
value: only objects are accepted. -/
def EdenNotification.deserialize : Json → Except DeError EdenNotification
  | .obj fields => notifScan fields Option.none Option.none
  | j => .error (.invalidType j.kind "struct EdenNotification")

/-- `src/json_rpc/response.rs`: the payload of a response — either a
successful raw result or an error object. -/
inductive ResponsePayload where
  | Success (payload : Json)
  | Failure (err : ErrorPayload)

/-- `ResponsePayload::is_success`. -/
def ResponsePayload.is_success : ResponsePayload → Bool
  | .Success _ => true
  | _ => false

/-- `ResponsePayload::is_error`. -/
def ResponsePayload.is_error : ResponsePayload → Bool
  | .Failure _ => true
  | _ => false

/-- `src/json_rpc/response.rs`: a JSON-RPC 2.0 response object. -/
structure Response where
  id : Id
  payload : ResponsePayload

/-- `src/json_rpc/notification.rs`: the classification result — a
response or a subscription notification. -/
inductive EdenItem where
  | Response (r : Response)
  | Notification (n : EdenNotification)

/-- The four optional slots accumulated by `EdenItemVisitor::visit_map`
while draining the object's keys.  Each captured value is decoded
eagerly at its occurrence, exactly as `map.next_value()?` does: `id` as
an `Id`, `result` as a raw value, `params` as an `EdenNotification`,
`error` as an `ErrorPayload`. -/
structure Slots where
  id : Option Id
  result : Option Json
  params : Option EdenNotification
  error : Option ErrorPayload

/-- All four slots empty, the state before the key loop. -/
def Slots.empty : Slots := ⟨Option.none, Option.none, Option.none, Option.none⟩

/-- The key loop of `EdenItemVisitor::visit_map`: a repeated known key
fails with `duplicate_field`; a known key's value is decoded on the
spot and any decode failure propagates; unknown keys are consumed and
discarded. -/
def scanFields : List (String × Json) → Slots → Except DeError Slots
  | [], acc => .ok acc
  | (key, v) :: rest, acc =>
    if key = "id" then
      match acc.id with
      | some _ => .error (.duplicateField "id")
      | Option.none =>
        match Id.deserialize v with
        | .error e => .error e
        | .ok i => scanFields rest { acc with id := some i }
    else if key = "result" then
      match acc.result with
      | some _ => .error (.duplicateField "result")
      | Option.none => scanFields rest { acc with result := some v }
    else if key = "params" then
      match acc.params with
      | some _ => .error (.duplicateField "params")
      | Option.none =>
        match EdenNotification.deserialize v with
        | .error e => .error e
        | .ok n => scanFields rest { acc with params := some n }
    else if key = "error" then
      match acc.error with
      | some _ => .error (.duplicateField "error")
      | Option.none =>
        match ErrorPayload.deserialize v with
        | .error e => .error e
        | .ok ep => scanFields rest { acc with error := some ep }
    else scanFields rest acc

/-- The decision table applied after the key scan
(`EdenItemVisitor::visit_map`, after the loop): with an `id` the object
is a response whose payload is `Failure(error)` if `error` was
captured, else `Success(result)` if `result` was, else the object
fails; without an `id`, a captured `error` is rejected, a captured
`params` is a notification, and otherwise `params` is missing. -/
def classifySlots (s : Slots) : Except DeError EdenItem :=
  match s.id with
  | some i =>
    match s.error with
    | some e => .ok (.Response ⟨i, .Failure e⟩)
    | Option.none =>
      match s.result with
      | some r => .ok (.Response ⟨i, .Success r⟩)
      | Option.none => .error (.custom "missing `result` or `error` field in response")
  | Option.none =>
    match s.error with
    | some _ => .error (.custom "unexpected `error` field in subscription notification")
    | Option.none =>
      match s.params with
      | some n => .ok (.Notification n)
      | Option.none => .error (.missingField "params")

/-- `impl Deserialize for EdenItem`: scan the object's keys into the
four slots, then classify.  The visitor only handles maps, so any
non-object is rejected with the visitor's expectation. -/
def EdenItem.deserialize : Json → Except DeError EdenItem
  | .obj fields =>
    match scanFields fields Slots.empty with
    | .error e => .error e
    | .ok s => classifySlots s
  | j => .error (.invalidType j.kind "a JSON-RPC response or an Ethereum-style notification")

/-- Whether a field list contains the given key at least once. -/
def hasKey : List (String × Json) → String → Bool
  | [], _ => false
  | (k', _) :: rest, k => (k' == k) || hasKey rest k

/-- How many times a field list contains the given key. -/
def countKey : List (String × Json) → String → Nat
  | [], _ => 0
  | (k', _) :: rest, k => (if k' = k then 1 else 0) + countKey rest k

/-- The value of the first occurrence of a key, if any. -/
def lookupKey : List (String × Json) → String → Option Json
  | [], _ => Option.none
  | (k', v) :: rest, k => if k' = k then some v else lookupKey rest k

/-- Every value stored under a `message` key is a string primitive. -/
def msgStrings : List (String × Json) → Bool
  | [] => true
  | (k, v) :: rest => (if k = "message" then v.isStr else true) && msgStrings rest

/-- The string content of an optional JSON value, when it is a string. -/
def strOf : Option Json → Option String
  | some (.str s) => some s
  | _ => Option.none

/-- Left-biased choice on options (the source's `Option::or_else`). -/
def orOpt {α : Type} : Option α → Option α → Option α
  | some x, _ => some x
  | Option.none, b => b

/-- Whether a decode attempt succeeded. -/
def isOkE {ε α : Type} : Except ε α → Bool
  | .ok _ => true
  | .error _ => false

/-- `src/types.rs` scalar aliases.  The ethers-core scalar wrappers are
external value types; only their identities matter to the conversions,
so they are modelled by plain naturals and byte lists. -/
abbrev U64 := Nat

/-- 256-bit unsigned scalar, modelled as a natural. -/
abbrev U256 := Nat

/-- 256-bit hash, modelled as a natural. -/
abbrev H256 := Nat

/-- 20-byte account address, modelled as a natural. -/
abbrev Address := Nat

/-- Opaque byte string. -/
abbrev Bytes := List Nat

/-- One EIP-2930 access-list entry. -/
structure AccessListItem where
  address : Address
  storage_keys : List H256

/-- EIP-2930 access list. -/
abbrev AccessList := List AccessListItem

/-- The catch-all field bag filled by ethers' `Transaction` `Default`
(its `other: OtherFields`); empty by default. -/
abbrev OtherFields := List (String × Json)

/-- `src/types.rs`: the Eden-specific pending-transaction record.  The
Rust field `from` is spelled `from'` because `from` is a reserved word
here. -/
structure EdenPendingTx where
  type : U64
  hash : H256
  from' : Address
  nonce : U256
  gas_limit : U256
  to' : Option Address
  data : Bytes
  v : U64
  r : U256
  s : U256
  value : U256
  chain_id : Option U256
  access_list : Option AccessList
  max_priority_fee_per_gas : Option U256
  max_fee_per_gas : Option U256
  gas_price : Option U256

/-- ethers-core's `Transaction` with the fields the conversions in
`src/types.rs` assign; the remaining `Default::default()` field is the
`other` bag, empty by default. -/
structure EthersTx where
  hash : H256
  nonce : U256
  block_hash : Option H256
  block_number : Option U64
  transaction_index : Option U64
  from' : Address
  to' : Option Address
  value : U256
  gas_price : Option U256
  gas : U256
  input : Bytes
  v : U64
  r : U256
  s : U256
  transaction_type : Option U64
  access_list : Option AccessList
  max_priority_fee_per_gas : Option U256
  max_fee_per_gas : Option U256
  chain_id : Option U256
  other : OtherFields

/-- `EdenPendingTx::into_ethers_tx`: field-by-field construction of the
ethers transaction; `block_hash`, `block_number` and
`transaction_index` are set to `None`, `transaction_type` to
`Some(type)`, and the rest is `Default::default()`. -/
def EdenPendingTx.into_ethers_tx (self : EdenPendingTx) : EthersTx :=
  { hash := self.hash
    nonce := self.nonce
    block_hash := Option.none
    block_number := Option.none
    transaction_index := Option.none
    from' := self.from'
    to' := self.to'
    value := self.value
    gas_price := self.gas_price
    gas := self.gas_limit
    input := self.data
    v := self.v
    r := self.r
    s := self.s
    transaction_type := some self.type
    access_list := self.access_list
    max_priority_fee_per_gas := self.max_priority_fee_per_gas
    max_fee_per_gas := self.max_fee_per_gas
    chain_id := self.chain_id
    other := [] }

/-- `impl From<EdenPendingTx> for EthersTx`: the same field-by-field
construction, written out a second time in the source. -/
def EthersTx.fromEdenPendingTx (val : EdenPendingTx) : EthersTx :=
  { hash := val.hash
    nonce := val.nonce
    block_hash := Option.none
    block_number := Option.none
    transaction_index := Option.none
    from' := val.from'
    to' := val.to'
    value := val.value
    gas_price := val.gas_price
    gas := val.gas_limit
    input := val.data
    v := val.v
    r := val.r
    s := val.s
    transaction_type := some val.type
    access_list := val.access_list
    max_priority_fee_per_gas := val.max_priority_fee_per_gas
    max_fee_per_gas := val.max_fee_per_gas
    chain_id := val.chain_id
    other := [] }

/-- A websocket frame as the driver sees it (`tungstenite::Message`).
Payload bytes of ping/pong are opaque and modelled as byte lists; a
close frame optionally carries a close reason, modelled as opaque text;
`binary` stands for the remaining message kinds the loop's catch-all
arm ignores (`Binary`, `Frame`). -/
inductive Frame where
  | text (json : Json)
  | ping (data : List Nat)
  | pong (data : List Nat)
  | close (frame : Option String)
  | binary (data : List Nat)

/-- One step of `read.next()`: either a frame, or a transport-level
receive error. -/
inductive InEvent where
  | frame (f : Frame)
  | recvError (msg : String)

/-- Error-level log lines the loop can emit (`tracing::error!`):
an error response payload, a close frame with data, a close frame
without data ("WS server has gone away"), and a transport receive
error.  The debug-level ping/pong lines are not part of the error log. -/
inductive LogEntry where
  | responseError (payload : ResponsePayload)
  | closeWithData (frame : String)
  | serverGone
  | streamError (msg : String)

/-- How the receive loop in `Client::subscribe_txs` ends:
`streamEnded` — the transport stream was exhausted (`eyre::Ok(())`);
`closedByServer` — a close frame (`Err("Stream has been closed")`);
`decodeFailure` — `serde_json::from_str::<EdenItem>` failed and `?`
propagated; `consumerGone` — `tx.send` failed because the receiver was
dropped and `?` propagated the `SendError`, with nothing logged;
`recvFailure` — a transport receive error was logged and the loop
`break`s. -/
inductive Outcome where
  | streamEnded
  | closedByServer
  | decodeFailure (e : DeError)
  | consumerGone
  | recvFailure

/-- What a run of the receive loop produced: the payloads pushed onto
the delivery queue in order, the frames written back to the transport
in order, the error-level log lines in order, and the way it ended. -/
structure DriverResult where
  pushed : List Json
  sent : List Frame
  logs : List LogEntry
  outcome : Outcome

/-- Whether the next `tx.send` succeeds: the consumer handle may be
dropped after a fixed number of deliveries (`some k`: the push after
`k` successful ones fails), or never (`none`). -/
def sendOk : Option Nat → Nat → Bool
  | Option.none, _ => true
  | some k, pc => decide (pc < k)

/-- The receive loop of `Client::subscribe_txs`, driven over an
explicit event sequence.  `drop?` is the consumer lifetime, the `Nat`
argument counts the pushes already delivered.  A text frame is decoded
as an `EdenItem`: a decode failure is fatal (`?`); an error response is
logged and discarded, a success response discarded silently; a
notification's `result` is pushed, and a failed push ends the loop
silently.  A ping is answered with a pong carrying the same bytes and
vice versa; a close frame logs the reason and ends the loop with a
stream-closed failure; other frames are ignored; a transport receive
error is logged and `break`s. -/
def runLoop (drop? : Option Nat) : Nat → List InEvent → DriverResult
  | _, [] => ⟨[], [], [], .streamEnded⟩
  | pc, .frame (.text j) :: rest =>
    match EdenItem.deserialize j with
    | .error e => ⟨[], [], [], .decodeFailure e⟩
    | .ok (.Response r) =>
      let res := runLoop drop? pc rest
      if r.payload.is_error then { res with logs := .responseError r.payload :: res.logs }
      else res
    | .ok (.Notification n) =>
      if sendOk drop? pc then
        let res := runLoop drop? (pc + 1) rest
        { res with pushed := n.result :: res.pushed }
      else ⟨[], [], [], .consumerGone⟩
  | pc, .frame (.pong d) :: rest =>
    let res := runLoop drop? pc rest
    { res with sent := .ping d :: res.sent }
  | pc, .frame (.ping d) :: rest =>
    let res := runLoop drop? pc rest
    { res with sent := .pong d :: res.sent }
  | _, .frame (.close f) :: _ =>
    ⟨[], [],
      [match f with
       | some reason => .closeWithData reason
       | Option.none => .serverGone],
      .closedByServer⟩
  | pc, .frame (.binary _) :: rest => runLoop drop? pc rest
  | _, .recvError m :: _ => ⟨[], [], [.streamError m], .recvFailure⟩

/-- The notification payload an event would contribute to the delivery
queue: the `result` of a text frame that classifies as a notification,
nothing otherwise. -/
def notifPayload : InEvent → Option Json
  | .frame (.text j) =>
    match EdenItem.deserialize j with
    | .ok (.Notification n) => some n.result
    | _ => Option.none
  | _ => Option.none

/-- Whether the loop processes an event and keeps running: every frame
except a close frame, provided a text frame decodes; a close frame, a
decode failure and a transport error all terminate the loop. -/
def processable : InEvent → Bool
  | .frame (.text j) =>
    match EdenItem.deserialize j with
    | .ok _ => true
    | .error _ => false
  | .frame (.close _) => false
  | .frame _ => true
  | .recvError _ => false

/-- C1: for every JSON object whose key scan yields an `id` slot, the
classification produces a response: the payload is `Failure(error)`
when the `error` slot is populated (taking precedence over a populated
`result`), else `Success(result)` when the `result` slot is populated,
else decoding fails with the missing-field error naming `result` or
`error`. -/
theorem c1_response_classification (fields : List (String × Json)) (s : Slots) (i : Id)
    (hscan : scanFields fields Slots.empty = .ok s) (hid : s.id = some i) :
    EdenItem.deserialize (.obj fields) =
      match s.error with
      | some e => .ok (.Response ⟨i, .Failure e⟩)
      | Option.none =>
        match s.result with
        | some r => .ok (.Response ⟨i, .Success r⟩)
        | Option.none => .error (.custom "missing `result` or `error` field in response") := by
  simp only [EdenItem.deserialize, hscan, classifySlots, hid]

/-- Witness for C1 on a concrete object carrying `id`, `result` and
`error` at once: the error payload takes precedence. -/
theorem c1_response_classification_witness :
    scanFields
        [("id", Json.num 1), ("result", Json.num 2),
         ("error", Json.obj [("code", Json.num (-32700)), ("message", Json.str "Parse error")])]
        Slots.empty =
      .ok ⟨some (.number 1), some (Json.num 2), Option.none,
           some ⟨-32700, "Parse error", Option.none⟩⟩ ∧
    EdenItem.deserialize
        (Json.obj
          [("id", Json.num 1), ("result", Json.num 2),
           ("error", Json.obj [("code", Json.num (-32700)), ("message", Json.str "Parse error")])]) =
      .ok (.Response ⟨.number 1, .Failure ⟨-32700, "Parse error", Option.none⟩⟩) := by
  refine ⟨rfl, ?_⟩
  exact c1_response_classification _
    ⟨some (.number 1), some (Json.num 2), Option.none, some ⟨-32700, "Parse error", Option.none⟩⟩
    (.number 1) rfl rfl

/-- C2: for every JSON object whose key scan yields no `id` slot,
classification fails with the unexpected-field error for `error` when
the `error` slot is populated; otherwise it succeeds as a notification
exactly when the `params` slot is populated; otherwise it fails with
`missing_field("params")`. -/
theorem c2_notification_classification (fields : List (String × Json)) (s : Slots)
    (hscan : scanFields fields Slots.empty = .ok s) (hid : s.id = Option.none) :
    EdenItem.deserialize (.obj fields) =
      match s.error with
      | some _ => .error (.custom "unexpected `error` field in subscription notification")
      | Option.none =>
        match s.params with
        | some n => .ok (.Notification n)
        | Option.none => .error (.missingField "params") := by
  simp only [EdenItem.deserialize, hscan, classifySlots, hid]

/-- Witness for C2 on a concrete notification object. -/
theorem c2_notification_classification_witness :
    scanFields
        [("jsonrpc", Json.str "2.0"), ("method", Json.str "subscription"),
         ("params", Json.obj [("subscription", Json.num 7), ("result", Json.null)])]
        Slots.empty =
      .ok ⟨Option.none, Option.none, some ⟨7, Json.null⟩, Option.none⟩ ∧
    EdenItem.deserialize
        (Json.obj
          [("jsonrpc", Json.str "2.0"), ("method", Json.str "subscription"),
           ("params", Json.obj [("subscription", Json.num 7), ("result", Json.null)])]) =
      .ok (.Notification ⟨7, Json.null⟩) := by
  refine ⟨rfl, ?_⟩
  exact c2_notification_classification _
    ⟨Option.none, Option.none, some ⟨7, Json.null⟩, Option.none⟩ rfl rfl

/-- C4: `Id` decoding maps a string primitive to `String`, an unsigned
64-bit integer primitive to `Number`, and null to `None`; every other
JSON shape fails with a type-mismatch error naming the expected set
"a string, a number, or null"; and whatever an `Id` was decoded from,
re-encoding it yields the original JSON value. -/
theorem c4_id_decode_roundtrip :
    (∀ s, Id.deserialize (.str s) = .ok (.string s)) ∧
    (∀ n : Nat, n < 2 ^ 64 → Id.deserialize (.num (n : Int)) = .ok (.number n)) ∧
    Id.deserialize .null = .ok .none ∧
    (∀ b, Id.deserialize (.bool b) =
      .error (.invalidType "boolean" "a string, a number, or null")) ∧
    (∀ xs, Id.deserialize (.arr xs) =
      .error (.invalidType "sequence" "a string, a number, or null")) ∧
    (∀ fs, Id.deserialize (.obj fs) =
      .error (.invalidType "map" "a string, a number, or null")) ∧
    (∀ n : Int, n < 0 → Id.deserialize (.num n) =
      .error (.invalidType "integer" "a string, a number, or null")) ∧
    (∀ j i, Id.deserialize j = .ok i → Id.serialize i = j) := by
  refine ⟨fun s => rfl, ?_, rfl, fun b => rfl, fun xs => rfl, fun fs => rfl, ?_, ?_⟩
  · intro n hn
    simp only [Id.deserialize]
    rw [if_pos (by omega : (0 : Int) ≤ (n : Int)),
      if_pos (by omega : (n : Int) < 2 ^ 64)]
    simp
  · intro n hn
    simp only [Id.deserialize]
    rw [if_neg (by omega)]
  · intro j i h
    cases j with
    | null =>
      simp only [Id.deserialize, Except.ok.injEq] at h
      rw [← h]
      rfl
    | bool b => exact absurd h (by simp [Id.deserialize])
    | num n =>
      simp only [Id.deserialize] at h
      split at h
      · split at h
        · rename_i h0 _
          simp only [Except.ok.injEq] at h
          rw [← h]
          simp [Id.serialize, Int.toNat_of_nonneg h0]
        · exact absurd h (by simp)
      · exact absurd h (by simp)
    | str s =>
      simp only [Id.deserialize, Except.ok.injEq] at h
      rw [← h]
      rfl
    | arr xs => exact absurd h (by simp [Id.deserialize])
    | obj fs => exact absurd h (by simp [Id.deserialize])

/-- Witness for C4: decoding `1`, `"abc"` and `null` yields `Number 1`,
`String "abc"` and `None`, each re-encoding to its original form. -/
theorem c4_id_decode_roundtrip_witness :
    Id.deserialize (Json.num 1) = .ok (.number 1) ∧
    Id.serialize (.number 1) = Json.num 1 ∧
    Id.deserialize (Json.str "abc") = .ok (.string "abc") ∧
    Id.serialize (.string "abc") = Json.str "abc" ∧
    Id.deserialize Json.null = .ok .none ∧
    Id.serialize .none = Json.null := by
  refine ⟨c4_id_decode_roundtrip.2.1 1 (by decide), ?_, c4_id_decode_roundtrip.1 "abc", ?_, c4_id_decode_roundtrip.2.2.1, ?_⟩
  · exact c4_id_decode_roundtrip.2.2.2.2.2.2.2 (Json.num 1) (.number 1)
      (c4_id_decode_roundtrip.2.1 1 (by decide))
  · exact c4_id_decode_roundtrip.2.2.2.2.2.2.2 (Json.str "abc") (.string "abc")
      (c4_id_decode_roundtrip.1 "abc")
  · exact c4_id_decode_roundtrip.2.2.2.2.2.2.2 Json.null .none
      c4_id_decode_roundtrip.2.2.1

/-- The key scan processes a concatenation left to right: an error in
the first part short-circuits, otherwise the second part continues from
the slots the first part produced. -/
theorem scanFields_append (l1 l2 : List (String × Json)) :
    ∀ acc, scanFields (l1 ++ l2) acc =
      match scanFields l1 acc with
      | .error e => .error e
      | .ok s => scanFields l2 s := by
  induction l1 with
  | nil => intro acc; rfl
  | cons hd tl ih =>
    intro acc
    obtain ⟨k, v⟩ := hd
    rw [List.cons_append]
    simp only [scanFields]
    by_cases h1 : k = "id"
    · simp only [if_pos h1]
      cases acc.id
      · cases hdes : Id.deserialize v
        · rfl
        · exact ih _
      · rfl
    · simp only [if_neg h1]
      by_cases h2 : k = "result"
      · simp only [if_pos h2]
        cases acc.result
        · exact ih _
        · rfl
      · simp only [if_neg h2]
        by_cases h3 : k = "params"
        · simp only [if_pos h3]
          cases acc.params
          · cases hdes : EdenNotification.deserialize v
            · rfl
            · exact ih _
          · rfl
        · simp only [if_neg h3]
          by_cases h4 : k = "error"
          · simp only [if_pos h4]
            cases acc.error
            · cases hdes : ErrorPayload.deserialize v
              · rfl
              · exact ih _
            · rfl
          · simp only [if_neg h4]
            exact ih _

/-- When the key scan succeeds, each of the four slots is populated in
the output whenever it was populated on entry or its key occurs in the
scanned fields. -/
theorem scanFields_slots (l : List (String × Json)) :
    ∀ acc s, scanFields l acc = .ok s →
      ((acc.id.isSome = true ∨ hasKey l "id" = true) → s.id.isSome = true) ∧
      ((acc.result.isSome = true ∨ hasKey l "result" = true) → s.result.isSome = true) ∧
      ((acc.params.isSome = true ∨ hasKey l "params" = true) → s.params.isSome = true) ∧
      ((acc.error.isSome = true ∨ hasKey l "error" = true) → s.error.isSome = true) := by
  induction l with
  | nil =>
    intro acc s h
    simp only [scanFields, Except.ok.injEq] at h
    subst h
    simp [hasKey]
  | cons hd tl ih =>
    intro acc s h
    obtain ⟨k, v⟩ := hd
    simp only [scanFields] at h
    by_cases h1 : k = "id"
    · rw [if_pos h1] at h
      cases hid : acc.id with
      | some _ => rw [hid] at h; exact absurd h (by simp)
      | none =>
        rw [hid] at h
        cases hdes : Id.deserialize v with
        | error e => rw [hdes] at h; exact absurd h (by simp)
        | ok i =>
          rw [hdes] at h
          have := ih _ _ h
          refine ⟨fun _ => this.1 (Or.inl rfl), fun hr => this.2.1 ?_,
            fun hp => this.2.2.1 ?_, fun he => this.2.2.2 ?_⟩
          · rcases hr with hr | hr
            · exact Or.inl hr
            · simp only [hasKey, h1] at hr
              exact Or.inr (by simpa using hr)
          · rcases hp with hp | hp
            · exact Or.inl hp
            · simp only [hasKey, h1] at hp
              exact Or.inr (by simpa using hp)
          · rcases he with he | he
            · exact Or.inl he
            · simp only [hasKey, h1] at he
              exact Or.inr (by simpa using he)
    · rw [if_neg h1] at h
      by_cases h2 : k = "result"
      · rw [if_pos h2] at h
        cases hres : acc.result with
        | some _ => rw [hres] at h; exact absurd h (by simp)
        | none =>
          rw [hres] at h
          have := ih _ _ h
          refine ⟨fun hi => this.1 ?_, fun _ => this.2.1 (Or.inl rfl),
            fun hp => this.2.2.1 ?_, fun he => this.2.2.2 ?_⟩
          · rcases hi with hi | hi
            · exact Or.inl hi
            · simp only [hasKey, h2] at hi
              exact Or.inr (by simpa using hi)
          · rcases hp with hp | hp
            · exact Or.inl hp
            · simp only [hasKey, h2] at hp
              exact Or.inr (by simpa using hp)
          · rcases he with he | he
            · exact Or.inl he
            · simp only [hasKey, h2] at he
              exact Or.inr (by simpa using he)
      · rw [if_neg h2] at h
        by_cases h3 : k = "params"
        · rw [if_pos h3] at h
          cases hpar : acc.params with
          | some _ => rw [hpar] at h; exact absurd h (by simp)
          | none =>
            rw [hpar] at h
            cases hdes : EdenNotification.deserialize v with
            | error e => rw [hdes] at h; exact absurd h (by simp)
            | ok n =>
              rw [hdes] at h
              have := ih _ _ h
              refine ⟨fun hi => this.1 ?_, fun hr => this.2.1 ?_,
                fun _ => this.2.2.1 (Or.inl rfl), fun he => this.2.2.2 ?_⟩
              · rcases hi with hi | hi
                · exact Or.inl hi
                · simp only [hasKey, h3] at hi
                  exact Or.inr (by simpa using hi)
              · rcases hr with hr | hr
                · exact Or.inl hr
                · simp only [hasKey, h3] at hr
                  exact Or.inr (by simpa using hr)
              · rcases he with he | he
                · exact Or.inl he
                · simp only [hasKey, h3] at he
                  exact Or.inr (by simpa using he)
        · rw [if_neg h3] at h
          by_cases h4 : k = "error"
          · rw [if_pos h4] at h
            cases herr : acc.error with
            | some _ => rw [herr] at h; exact absurd h (by simp)
            | none =>
              rw [herr] at h
              cases hdes : ErrorPayload.deserialize v with
              | error e => rw [hdes] at h; exact absurd h (by simp)
              | ok ep =>
                rw [hdes] at h
                have := ih _ _ h
                refine ⟨fun hi => this.1 ?_, fun hr => this.2.1 ?_,
                  fun hp => this.2.2.1 ?_, fun _ => this.2.2.2 (Or.inl rfl)⟩
                · rcases hi with hi | hi
                  · exact Or.inl hi
                  · simp only [hasKey, h4] at hi
                    exact Or.inr (by simpa using hi)
                · rcases hr with hr | hr
                  · exact Or.inl hr
                  · simp only [hasKey, h4] at hr
                    exact Or.inr (by simpa using hr)
                · rcases hp with hp | hp
                  · exact Or.inl hp
                  · simp only [hasKey, h4] at hp
                    exact Or.inr (by simpa using hp)
          · rw [if_neg h4] at h
            have := ih _ _ h
            refine ⟨fun hi => this.1 ?_, fun hr => this.2.1 ?_,
              fun hp => this.2.2.1 ?_, fun he => this.2.2.2 ?_⟩
            · rcases hi with hi | hi
              · exact Or.inl hi
              · simp only [hasKey] at hi
                rcases Bool.or_eq_true_iff.mp hi with hk | hk
                · exact absurd (by simpa using hk) h1
                · exact Or.inr hk
            · rcases hr with hr | hr
              · exact Or.inl hr
              · simp only [hasKey] at hr
                rcases Bool.or_eq_true_iff.mp hr with hk | hk
                · exact absurd (by simpa using hk) h2
                · exact Or.inr hk
            · rcases hp with hp | hp
              · exact Or.inl hp
              · simp only [hasKey] at hp
                rcases Bool.or_eq_true_iff.mp hp with hk | hk
                · exact absurd (by simpa using hk) h3
                · exact Or.inr hk
            · rcases he with he | he
              · exact Or.inl he
              · simp only [hasKey] at he
                rcases Bool.or_eq_true_iff.mp he with hk | hk
                · exact absurd (by simpa using hk) h4
                · exact Or.inr hk

/-- The error-payload field loop processes a concatenation left to
right. -/
theorem epScanFields_append (l1 l2 : List (String × Json)) :
    ∀ t, epScanFields (l1 ++ l2) t =
      match epScanFields l1 t with
      | .error e => .error e
      | .ok u => epScanFields l2 u := by
  induction l1 with
  | nil => intro t; rfl
  | cons hd tl ih =>
    intro t
    obtain ⟨k, v⟩ := hd
    rw [List.cons_append]
    simp only [epScanFields]
    by_cases h1 : k = "code"
    · simp only [if_pos h1]
      cases t.code?
      · cases v with
        | num n =>
          by_cases hr : i64Min ≤ n ∧ n < i64Max
          · simp only [if_pos hr]
            exact ih _
          · simp only [if_neg hr]
        | null => rfl
        | bool b => rfl
        | str s => rfl
        | arr xs => rfl
        | obj fs => rfl
      · rfl
    · simp only [if_neg h1]
      by_cases h2 : k = "message"
      · simp only [if_pos h2]
        cases t.message?
        · cases v with
          | str s => exact ih _
          | null => rfl
          | bool b => rfl
          | num n => rfl
          | arr xs => rfl
          | obj fs => rfl
        · rfl
      · simp only [if_neg h2]
        by_cases h3 : k = "data"
        · simp only [if_pos h3]
          cases t.data?
          · exact ih _
          · rfl
        · simp only [if_neg h3]
          exact ih _

/-- When the error-payload field loop succeeds, each of its three slots
is populated in the output whenever it was populated on entry or its
key occurs in the scanned fields. -/
theorem epScanFields_slots (l : List (String × Json)) :
    ∀ t u, epScanFields l t = .ok u →
      ((t.code?.isSome = true ∨ hasKey l "code" = true) → u.code?.isSome = true) ∧
      ((t.message?.isSome = true ∨ hasKey l "message" = true) → u.message?.isSome = true) ∧
      ((t.data?.isSome = true ∨ hasKey l "data" = true) → u.data?.isSome = true) := by
  induction l with
  | nil =>
    intro t u h
    simp only [epScanFields, Except.ok.injEq] at h
    subst h
    simp [hasKey]
  | cons hd tl ih =>
    intro t u h
    obtain ⟨k, v⟩ := hd
    simp only [epScanFields] at h
    by_cases h1 : k = "code"
    · rw [if_pos h1] at h
      cases hc : t.code? with
      | some _ => rw [hc] at h; exact absurd h (by simp)
      | none =>
        rw [hc] at h
        cases v with
        | num n =>
          simp only at h
          by_cases hr : i64Min ≤ n ∧ n < i64Max
          · rw [if_pos hr] at h
            have := ih _ _ h
            refine ⟨fun _ => this.1 (Or.inl rfl), fun hm => this.2.1 ?_,
              fun hd' => this.2.2 ?_⟩
            · rcases hm with hm | hm
              · exact Or.inl hm
              · simp only [hasKey, h1] at hm
                exact Or.inr (by simpa using hm)
            · rcases hd' with hd' | hd'
              · exact Or.inl hd'
              · simp only [hasKey, h1] at hd'
                exact Or.inr (by simpa using hd')
          · rw [if_neg hr] at h
            exact absurd h (by simp)
        | null => exact absurd h (by simp)
        | bool b => exact absurd h (by simp)
        | str s => exact absurd h (by simp)
        | arr xs => exact absurd h (by simp)
        | obj fs => exact absurd h (by simp)
    · rw [if_neg h1] at h
      by_cases h2 : k = "message"
      · rw [if_pos h2] at h
        cases hm0 : t.message? with
        | some _ => rw [hm0] at h; exact absurd h (by simp)
        | none =>
          rw [hm0] at h
          cases v with
          | str s =>
            simp only at h
            have := ih _ _ h
            refine ⟨fun hc => this.1 ?_, fun _ => this.2.1 (Or.inl rfl),
              fun hd' => this.2.2 ?_⟩
            · rcases hc with hc | hc
              · exact Or.inl hc
              · simp only [hasKey, h2] at hc
                exact Or.inr (by simpa using hc)
            · rcases hd' with hd' | hd'
              · exact Or.inl hd'
              · simp only [hasKey, h2] at hd'
                exact Or.inr (by simpa using hd')
          | null => exact absurd h (by simp)
          | bool b => exact absurd h (by simp)
          | num n => exact absurd h (by simp)
          | arr xs => exact absurd h (by simp)
          | obj fs => exact absurd h (by simp)
      · rw [if_neg h2] at h
        by_cases h3 : k = "data"
        · rw [if_pos h3] at h
          cases hd0 : t.data? with
          | some _ => rw [hd0] at h; exact absurd h (by simp)
          | none =>
            rw [hd0] at h
            have := ih _ _ h
            refine ⟨fun hc => this.1 ?_, fun hm => this.2.1 ?_,
              fun _ => this.2.2 (Or.inl rfl)⟩
            · rcases hc with hc | hc
              · exact Or.inl hc
              · simp only [hasKey, h3] at hc
                exact Or.inr (by simpa using hc)
            · rcases hm with hm | hm
              · exact Or.inl hm
              · simp only [hasKey, h3] at hm
                exact Or.inr (by simpa using hm)
        · rw [if_neg h3] at h
          have := ih _ _ h
          refine ⟨fun hc => this.1 ?_, fun hm => this.2.1 ?_, fun hd' => this.2.2 ?_⟩
          · rcases hc with hc | hc
            · exact Or.inl hc
            · simp only [hasKey] at hc
              rcases Bool.or_eq_true_iff.mp hc with hk | hk
              · exact absurd (by simpa using hk) h1
              · exact Or.inr hk
          · rcases hm with hm | hm
            · exact Or.inl hm
            · simp only [hasKey] at hm
              rcases Bool.or_eq_true_iff.mp hm with hk | hk
              · exact absurd (by simpa using hk) h2
              · exact Or.inr hk
          · rcases hd' with hd' | hd'
            · exact Or.inl hd'
            · simp only [hasKey] at hd'
              rcases Bool.or_eq_true_iff.mp hd' with hk | hk
              · exact absurd (by simpa using hk) h3
              · exact Or.inr hk

/-- C3, counterexample: the object with two `id` keys whose first `id`
value is a boolean fails — but with an invalid-type error raised while
decoding the first `id` value, not with `duplicate_field("id")`: the
value captured at the first occurrence is decoded before the second
occurrence is reached. -/
theorem c3_duplicate_counterexample :
    countKey [("id", Json.bool true), ("id", Json.num 1)] "id" = 2 ∧
    EdenItem.deserialize (Json.obj [("id", Json.bool true), ("id", Json.num 1)]) =
      .error (.invalidType "boolean" "a string, a number, or null") ∧
    DeError.invalidType "boolean" "a string, a number, or null" ≠
      DeError.duplicateField "id" := by
  refine ⟨rfl, rfl, by decide⟩

/-- C3, amended: in both decoders, when the fields preceding a repeated
occurrence of one of the scanned keys scan successfully (in particular,
the first occurrence's captured value decodes), the repeated occurrence
fails the decode with the duplicate-field error naming that key.  (When
an earlier captured value itself fails to decode, the decode still
fails, but with that value's own error.) -/
theorem c3_duplicate_amended :
    (∀ pre (v : Json) post (s : Slots), scanFields pre Slots.empty = .ok s →
      (hasKey pre "id" = true →
        EdenItem.deserialize (.obj (pre ++ ("id", v) :: post)) =
          .error (.duplicateField "id")) ∧
      (hasKey pre "result" = true →
        EdenItem.deserialize (.obj (pre ++ ("result", v) :: post)) =
          .error (.duplicateField "result")) ∧
      (hasKey pre "params" = true →
        EdenItem.deserialize (.obj (pre ++ ("params", v) :: post)) =
          .error (.duplicateField "params")) ∧
      (hasKey pre "error" = true →
        EdenItem.deserialize (.obj (pre ++ ("error", v) :: post)) =
          .error (.duplicateField "error"))) ∧
    (∀ pre (v : Json) post (t : EpSlots), epScanFields pre EpSlots.empty = .ok t →
      (hasKey pre "code" = true →
        ErrorPayload.deserialize (.obj (pre ++ ("code", v) :: post)) =
          .error (.duplicateField "code")) ∧
      (hasKey pre "message" = true →
        ErrorPayload.deserialize (.obj (pre ++ ("message", v) :: post)) =
          .error (.duplicateField "message")) ∧
      (hasKey pre "data" = true →
        ErrorPayload.deserialize (.obj (pre ++ ("data", v) :: post)) =
          .error (.duplicateField "data"))) := by
  constructor
  · intro pre v post s hscan
    have hs := scanFields_slots pre Slots.empty s hscan
    refine ⟨fun hk => ?_, fun hk => ?_, fun hk => ?_, fun hk => ?_⟩
    · obtain ⟨i, hi⟩ := Option.isSome_iff_exists.mp (hs.1 (Or.inr hk))
      simp [EdenItem.deserialize, scanFields_append, hscan, scanFields, hi]
    · obtain ⟨r, hr⟩ := Option.isSome_iff_exists.mp (hs.2.1 (Or.inr hk))
      simp [EdenItem.deserialize, scanFields_append, hscan, scanFields, hr]
    · obtain ⟨p, hp⟩ := Option.isSome_iff_exists.mp (hs.2.2.1 (Or.inr hk))
      simp [EdenItem.deserialize, scanFields_append, hscan, scanFields, hp]
    · obtain ⟨e, he⟩ := Option.isSome_iff_exists.mp (hs.2.2.2 (Or.inr hk))
      simp [EdenItem.deserialize, scanFields_append, hscan, scanFields, he]
  · intro pre v post t hscan
    have ht := epScanFields_slots pre EpSlots.empty t hscan
    refine ⟨fun hk => ?_, fun hk => ?_, fun hk => ?_⟩
    · obtain ⟨c, hc⟩ := Option.isSome_iff_exists.mp (ht.1 (Or.inr hk))
      simp [ErrorPayload.deserialize, epScanFields_append, hscan, epScanFields, hc]
    · obtain ⟨m, hm⟩ := Option.isSome_iff_exists.mp (ht.2.1 (Or.inr hk))
      simp [ErrorPayload.deserialize, epScanFields_append, hscan, epScanFields, hm]
    · obtain ⟨d, hd'⟩ := Option.isSome_iff_exists.mp (ht.2.2 (Or.inr hk))
      simp [ErrorPayload.deserialize, epScanFields_append, hscan, epScanFields, hd']

/-- Witness for the amended C3, on concrete objects with a repeated
`id` and a repeated `code` whose first occurrences decode fine. -/
theorem c3_duplicate_amended_witness :
    hasKey [("id", Json.num 7)] "id" = true ∧
    EdenItem.deserialize (Json.obj ([("id", Json.num 7)] ++ ("id", Json.null) :: [])) =
      .error (.duplicateField "id") ∧
    hasKey [("code", Json.num 3)] "code" = true ∧
    ErrorPayload.deserialize (Json.obj ([("code", Json.num 3)] ++ ("code", Json.num 4) :: [])) =
      .error (.duplicateField "code") := by
  refine ⟨rfl, ?_, rfl, ?_⟩
  · exact (c3_duplicate_amended.1 [("id", Json.num 7)] Json.null []
      ⟨some (.number 7), Option.none, Option.none, Option.none⟩ rfl).1 rfl
  · exact (c3_duplicate_amended.2 [("code", Json.num 3)] (Json.num 4) []
      ⟨some 3, Option.none, Option.none⟩ rfl).1 rfl

/-- A key that never occurs has no lookup value. -/
theorem countKey_zero_lookup (l : List (String × Json)) (k : String) :
    countKey l k = 0 → lookupKey l k = Option.none := by
  induction l with
  | nil => intro _; rfl
  | cons hd tl ih =>
    intro h
    obtain ⟨k', v⟩ := hd
    simp only [countKey] at h
    by_cases hk : k' = k
    · rw [if_pos hk] at h
      exact absurd h (by omega)
    · rw [if_neg hk] at h
      simp only [lookupKey, if_neg hk]
      exact ih (by omega)

/-- Characterization of the error-payload field loop on well-formed
objects: when `code`, `message` and `data` each occur at most once
(counting a slot already filled on entry) and every `message` value is
a string, the loop returns the slots obtained by looking the three keys
up, except that a `code` value that is not an `i64` integer fails with
its invalid-type error. -/
theorem epScan_char (fields : List (String × Json)) :
    ∀ (c : Option Int) (m : Option String) (d : Option Json),
      countKey fields "code" + (if c.isSome then 1 else 0) ≤ 1 →
      countKey fields "message" + (if m.isSome then 1 else 0) ≤ 1 →
      countKey fields "data" + (if d.isSome then 1 else 0) ≤ 1 →
      msgStrings fields = true →
      epScanFields fields ⟨c, m, d⟩ =
        match c, lookupKey fields "code" with
        | some cv, _ =>
          .ok ⟨some cv, orOpt m (strOf (lookupKey fields "message")),
               orOpt d (lookupKey fields "data")⟩
        | Option.none, Option.none =>
          .ok ⟨Option.none, orOpt m (strOf (lookupKey fields "message")),
               orOpt d (lookupKey fields "data")⟩
        | Option.none, some (.num n) =>
          if i64Min ≤ n ∧ n < i64Max then
            .ok ⟨some n, orOpt m (strOf (lookupKey fields "message")),
                 orOpt d (lookupKey fields "data")⟩
          else .error (.invalidType "number" "i64")
        | Option.none, some v => .error (.invalidType v.kind "i64") := by
  induction fields with
  | nil =>
    intro c m d _ _ _ _
    cases c <;> cases m <;> cases d <;> rfl
  | cons hd tl ih =>
    intro c m d hc hm hd' hs
    obtain ⟨k, v⟩ := hd
    by_cases h1 : k = "code"
    · subst h1
      have hc0 : c = Option.none := by
        cases c with
        | none => rfl
        | some x => exfalso; simp [countKey] at hc
      subst hc0
      have htl0 : countKey tl "code" = 0 := by simp [countKey] at hc; omega
      have hmc : countKey tl "message" + (if m.isSome then 1 else 0) ≤ 1 := by
        simpa [countKey] using hm
      have hdc : countKey tl "data" + (if d.isSome then 1 else 0) ≤ 1 := by
        simpa [countKey] using hd'
      have hsc : msgStrings tl = true := by simpa [msgStrings] using hs
      cases v with
      | num n =>
        simp only [epScanFields, lookupKey, reduceIte]
        by_cases hr : i64Min ≤ n ∧ n < i64Max
        · rw [if_pos hr, if_pos hr,
            ih (some n) m d (by simp [htl0]) hmc hdc hsc]
          simp [orOpt]
        · rw [if_neg hr, if_neg hr]
      | null => rfl
      | bool b => rfl
      | str s => rfl
      | arr xs => rfl
      | obj fs => rfl
    · by_cases h2 : k = "message"
      · subst h2
        have hm0 : m = Option.none := by
          cases m with
          | none => rfl
          | some x => exfalso; simp [countKey] at hm
        subst hm0
        have htlm : countKey tl "message" = 0 := by simp [countKey] at hm; omega
        have hvs : v.isStr = true ∧ msgStrings tl = true := by
          simpa [msgStrings] using hs
        have hcc : countKey tl "code" + (if c.isSome then 1 else 0) ≤ 1 := by
          simpa [countKey, h1] using hc
        have hdc : countKey tl "data" + (if d.isSome then 1 else 0) ≤ 1 := by
          simpa [countKey] using hd'
        cases v with
        | str s =>
          simp only [epScanFields, lookupKey, reduceIte, if_neg h1]
          rw [ih c (some s) d hcc (by simp [htlm]) hdc hvs.2]
          cases c with
          | none =>
            cases hlk : lookupKey tl "code" with
            | none => simp [orOpt, strOf]
            | some w => cases w <;> simp [orOpt, strOf]
          | some cv => simp [orOpt, strOf]
        | null => exact absurd hvs.1 (by simp [Json.isStr])
        | bool b => exact absurd hvs.1 (by simp [Json.isStr])
        | num n => exact absurd hvs.1 (by simp [Json.isStr])
        | arr xs => exact absurd hvs.1 (by simp [Json.isStr])
        | obj fs => exact absurd hvs.1 (by simp [Json.isStr])
      · by_cases h3 : k = "data"
        · subst h3
          have hd0 : d = Option.none := by
            cases d with
            | none => rfl
            | some x => exfalso; simp [countKey] at hd'
          subst hd0
          have htld : countKey tl "data" = 0 := by simp [countKey] at hd'; omega
          have hcc : countKey tl "code" + (if c.isSome then 1 else 0) ≤ 1 := by
            simpa [countKey, h1] using hc
          have hmc : countKey tl "message" + (if m.isSome then 1 else 0) ≤ 1 := by
            simpa [countKey, h2] using hm
          have hsc : msgStrings tl = true := by simpa [msgStrings, h2] using hs
          simp only [epScanFields, lookupKey, reduceIte, if_neg h1, if_neg h2]
          rw [ih c m (some v) hcc hmc (by simp [htld]) hsc]
          cases c with
          | none =>
            cases hlk : lookupKey tl "code" with
            | none => simp [orOpt]
            | some w => cases w <;> simp [orOpt]
          | some cv => simp [orOpt]
        · have hcc : countKey tl "code" + (if c.isSome then 1 else 0) ≤ 1 := by
            simpa [countKey, h1] using hc
          have hmc : countKey tl "message" + (if m.isSome then 1 else 0) ≤ 1 := by
            simpa [countKey, h2] using hm
          have hdc : countKey tl "data" + (if d.isSome then 1 else 0) ≤ 1 := by
            simpa [countKey, h3] using hd'
          have hsc : msgStrings tl = true := by simpa [msgStrings, h2] using hs
          simp only [epScanFields, if_neg h1, if_neg h2, if_neg h3]
          rw [ih c m d hcc hmc hdc hsc]
          simp only [lookupKey, if_neg h1, if_neg h2, if_neg h3]

/-- C5, counterexample: an object carrying a `code` key with a
signed-integer value nevertheless fails to decode, because its
`message` value is not a string. -/
theorem c5_error_payload_counterexample :
    lookupKey [("code", Json.num 1), ("message", Json.bool true)] "code" =
      some (Json.num 1) ∧
    ErrorPayload.deserialize (Json.obj [("code", Json.num 1), ("message", Json.bool true)]) =
      .error (.invalidType "boolean" "a string") ∧
    isOkE (ErrorPayload.deserialize
      (Json.obj [("code", Json.num 1), ("message", Json.bool true)])) = false :=
  ⟨rfl, rfl, rfl⟩

/-- C5, amended: over any JSON object in which `code`, `message` and
`data` each occur at most once and every `message` value is a string,
the decode succeeds — with the decoded `code` — exactly when a `code`
key with a signed-integer value occurs; a missing `code` fails with
`missing_field("code")`, an absent `message` yields the empty string,
an absent `data` yields no data, and unrecognized keys are consumed
and ignored without affecting the result (the outcome depends only on
the three recognized keys). -/
theorem c5_error_payload_amended (fields : List (String × Json))
    (hc : countKey fields "code" ≤ 1) (hm : countKey fields "message" ≤ 1)
    (hd : countKey fields "data" ≤ 1) (hs : msgStrings fields = true) :
    ErrorPayload.deserialize (.obj fields) =
      match lookupKey fields "code" with
      | Option.none => .error (.missingField "code")
      | some (.num n) =>
        if i64Min ≤ n ∧ n < i64Max then
          .ok ⟨n, (strOf (lookupKey fields "message")).getD "", lookupKey fields "data"⟩
        else .error (.invalidType "number" "i64")
      | some v => .error (.invalidType v.kind "i64") := by
  have h := epScan_char fields Option.none Option.none Option.none
    (by simpa using hc) (by simpa using hm) (by simpa using hd) hs
  simp only [ErrorPayload.deserialize, EpSlots.empty, h]
  cases hlk : lookupKey fields "code" with
  | none => simp [orOpt]
  | some v =>
    cases v with
    | num n =>
      simp only []
      by_cases hr : i64Min ≤ n ∧ n < i64Max
      · rw [if_pos hr, if_pos hr]
        simp [orOpt]
      · rw [if_neg hr, if_neg hr]
    | null => rfl
    | bool b => rfl
    | str s => rfl
    | arr xs => rfl
    | obj fs => rfl

/-- Witness for the amended C5 on a concrete object with an unknown
key, a `code`, no `message` and no `data`. -/
theorem c5_error_payload_amended_witness :
    ErrorPayload.deserialize
        (Json.obj [("jsonrpc", Json.str "2.0"), ("code", Json.num (-32700))]) =
      .ok ⟨-32700, "", Option.none⟩ := by
  have h := c5_error_payload_amended
    [("jsonrpc", Json.str "2.0"), ("code", Json.num (-32700))]
    (by decide) (by decide) (by decide) rfl
  simpa using h

/-- C6: with a live consumer, the payloads pushed onto the delivery
queue by a run of the loop are, in order, exactly the `result` payloads
of the text frames classifying as notifications among the events the
loop processes (the longest prefix of non-terminating events):
responses and control frames contribute nothing, and no notification is
skipped, duplicated or reordered. -/
theorem c6_ordered_delivery (events : List InEvent) :
    ∀ pc, (runLoop Option.none pc events).pushed =
      (events.takeWhile processable).filterMap notifPayload := by
  induction events with
  | nil => intro pc; rfl
  | cons e rest ih =>
    intro pc
    cases e with
    | frame f =>
      cases f with
      | text j =>
        cases hdec : EdenItem.deserialize j with
        | error err =>
          simp [runLoop, hdec, List.takeWhile_cons, processable]
        | ok item =>
          cases item with
          | Response r =>
            simp only [runLoop, hdec, List.takeWhile_cons, processable]
            split <;> simp [notifPayload, hdec, ih pc]
          | Notification n =>
            simp [runLoop, hdec, sendOk, List.takeWhile_cons, processable,
              notifPayload, ih (pc + 1)]
      | ping d =>
        simp [runLoop, List.takeWhile_cons, processable, notifPayload, ih pc]
      | pong d =>
        simp [runLoop, List.takeWhile_cons, processable, notifPayload, ih pc]
      | close f =>
        simp [runLoop, List.takeWhile_cons, processable]
      | binary d =>
        simp [runLoop, List.takeWhile_cons, processable, notifPayload, ih pc]
    | recvError m =>
      simp [runLoop, List.takeWhile_cons, processable]

/-- C7: a ping frame is answered by a pong carrying the same payload
bytes and a pong by a ping carrying the same payload bytes; in both
cases the loop continues on the remaining events and nothing is pushed
onto the delivery queue. -/
theorem c7_keepalive_echo (drop? : Option Nat) (pc : Nat) (d : List Nat)
    (rest : List InEvent) :
    runLoop drop? pc (.frame (.ping d) :: rest) =
      { runLoop drop? pc rest with sent := .pong d :: (runLoop drop? pc rest).sent } ∧
    runLoop drop? pc (.frame (.pong d) :: rest) =
      { runLoop drop? pc rest with sent := .ping d :: (runLoop drop? pc rest).sent } ∧
    (runLoop drop? pc (.frame (.ping d) :: rest)).pushed = (runLoop drop? pc rest).pushed ∧
    (runLoop drop? pc (.frame (.pong d) :: rest)).pushed = (runLoop drop? pc rest).pushed :=
  ⟨rfl, rfl, rfl, rfl⟩

/-- C8: a close frame terminates the loop immediately with the
stream-closed failure, pushing nothing and processing no further
events; the close reason is logged at error level — the frame contents
when data is present, "server has gone away" otherwise. -/
theorem c8_close_terminates (drop? : Option Nat) (pc : Nat) (f : Option String)
    (rest : List InEvent) :
    runLoop drop? pc (.frame (.close f) :: rest) =
      ⟨[], [],
        [match f with
         | some reason => .closeWithData reason
         | Option.none => .serverGone],
        .closedByServer⟩ :=
  rfl

/-- C9: when the push of a notification payload fails because the
consumer handle was dropped, the loop terminates at once as a silent
shutdown: the outcome is `consumerGone` and no log line is emitted. -/
theorem c9_consumer_gone_silent (drop? : Option Nat) (pc : Nat) (j : Json)
    (n : EdenNotification) (rest : List InEvent)
    (hdec : EdenItem.deserialize j = .ok (.Notification n))
    (hsend : sendOk drop? pc = false) :
    runLoop drop? pc (.frame (.text j) :: rest) = ⟨[], [], [], .consumerGone⟩ := by
  simp [runLoop, hdec, hsend]

/-- Witness for C9: a concrete notification frame with the consumer
already gone. -/
theorem c9_consumer_gone_silent_witness :
    EdenItem.deserialize
        (Json.obj [("params", Json.obj [("subscription", Json.num 1), ("result", Json.null)])]) =
      .ok (.Notification ⟨1, Json.null⟩) ∧
    sendOk (some 0) 0 = false ∧
    runLoop (some 0) 0
        [.frame (.text (Json.obj
          [("params", Json.obj [("subscription", Json.num 1), ("result", Json.null)])]))] =
      ⟨[], [], [], .consumerGone⟩ := by
  refine ⟨rfl, rfl, ?_⟩
  exact c9_consumer_gone_silent (some 0) 0 _ ⟨1, Json.null⟩ [] rfl rfl

/-- C10: the method `into_ethers_tx` and the `From` conversion agree on
every `EdenPendingTx`, and both leave `block_hash`, `block_number` and
`transaction_index` as `None`. -/
theorem c10_conversions_agree (t : EdenPendingTx) :
    t.into_ethers_tx = EthersTx.fromEdenPendingTx t ∧
    t.into_ethers_tx.block_hash = Option.none ∧
    t.into_ethers_tx.block_number = Option.none ∧
    t.into_ethers_tx.transaction_index = Option.none :=
  ⟨rfl, rfl, rfl, rfl⟩

end Eden
